import Mathlib

/-!
Verification of the streaming-transport plus incremental-render core of the
ai-contract-generator frontend.  Strings from the TypeScript source are
modelled as `List Char`; JavaScript string operations (`indexOf`, `slice`,
`replace` with the three fence regexes, `trim`) are translated operation by
operation.  Stateful React code (the message reducer in `App.tsx`, the
`useWebSocket` hook) is modelled as explicit state passing: hook state plus
an action step function for user calls and transport events.
-/

/-! ### Token Scanner (`getNextRenderableToken`, App source lines 27-49) -/

/-- Helper for the JS idiom `pending.indexOf(closer)` followed by
`slice(0, endIdx + 1)` / `slice(endIdx + 1)`: returns the token up to and
including the first occurrence of `cl`, with the remainder, or `none` when
`cl` does not occur (`indexOf` returned `-1`). -/
def splitAtCloser (cl : Char) : List Char → Option (List Char × List Char)
  | [] => none
  | c :: rest =>
    if c = cl then some ([c], rest)
    else
      match splitAtCloser cl rest with
      | none => none
      | some (t, r) => some (c :: t, r)

/-- Direct translation of `getNextRenderableToken`: on a pending buffer,
returns the next renderable token and the remainder.  Empty input yields
`("", "")`.  A leading `<` scans for the first `>` (one-character fallback
when absent); a leading `&` scans for the first `;` likewise; any other
leading character is emitted alone. -/
def getNextRenderableToken : List Char → List Char × List Char
  | [] => ([], [])
  | c :: rest =>
    if c = '<' then
      match splitAtCloser '>' (c :: rest) with
      | none => ([c], rest)
      | some (t, r) => (t, r)
    else if c = '&' then
      match splitAtCloser ';' (c :: rest) with
      | none => ([c], rest)
      | some (t, r) => (t, r)
    else ([c], rest)

/-! ### Render Scheduler model (typing effect, App source lines 171-206)

The chunk handler appends each chunk to both `generatedContent` (RawContent)
and `pendingBuffer`; each interval tick pulls one token from the pending
buffer via the Token Scanner and appends it to `displayContent`. -/

structure RenderState where
  raw : List Char
  pending : List Char
  displayed : List Char
deriving DecidableEq

/-- One chunk arrival or one timer tick, the two events that drive the
render pipeline within a generation cycle. -/
inductive REv
  | arrive (c : List Char)
  | tick
deriving DecidableEq

/-- The chunk branch of the message handler:
`setGeneratedContent(prev => prev + chunk)` and
`setPendingBuffer(prev => prev + chunk)`. -/
def rsArrive (st : RenderState) (c : List Char) : RenderState :=
  { st with raw := st.raw ++ c, pending := st.pending ++ c }

/-- The interval callback: on an empty pending buffer the timer stops and
state is unchanged; otherwise one token moves from the pending buffer to the
displayed content. -/
def rsTick (st : RenderState) : RenderState :=
  if st.pending = [] then st
  else
    let tr := getNextRenderableToken st.pending
    { st with displayed := st.displayed ++ tr.1, pending := tr.2 }

def rsStep (st : RenderState) : REv → RenderState
  | .arrive c => rsArrive st c
  | .tick => rsTick st

/-- Run the render pipeline from the post-`start` state (all three strings
empty) over a sequence of chunk arrivals and ticks. -/
def rsRun (evs : List REv) : RenderState :=
  evs.foldl rsStep ⟨[], [], []⟩

/-! ### `cleanMarkdownFences` (App.tsx lines 91-98)

```
content.replace(/^```[\w]*\n?/gm, '').replace(/\n?```$/gm, '')
       .replace(/```\n?/g, '').trim()
```
Each global regex replacement is modelled as a single left-to-right scan of
the original string, exactly as the JS regex engine performs it; the fuel
argument (instantiated with the length of the string) only makes the
recursion structural. -/

/-- JS `\w`, ASCII word characters. -/
def isWordChar (c : Char) : Bool := c.isAlphanum || c = '_'

/-- Whitespace removed by JS `String.prototype.trim`: the ECMAScript
WhiteSpace set (TAB, VT, FF, SP, NBSP, ZWNBSP and the Unicode
space-separator category) together with the LineTerminator set
(LF, CR, LS, PS). -/
def isJSWS (c : Char) : Bool :=
  c = ' ' || c = '\t' || c = '\n' || c = '\r' ||
  c = '\u000B' || c = '\u000C' || c = '\u00A0' || c = '\uFEFF' ||
  c = '\u1680' || ('\u2000' ≤ c && c ≤ '\u200A') ||
  c = '\u2028' || c = '\u2029' || c = '\u202F' || c = '\u205F' || c = '\u3000'

/-- An ECMAScript LineTerminator (LF, CR, LS, PS): the characters around
which the multiline anchors of a JS regex match. -/
def isLineTerm (c : Char) : Bool :=
  c = '\n' || c = '\r' || c = '\u2028' || c = '\u2029'

/-- Whether the string starts with three backticks. -/
def fence3 : List Char → Bool
  | '`' :: '`' :: '`' :: _ => true
  | _ => false

/-- JS multiline `$`: end of string or immediately before a line
terminator. -/
def isEol : List Char → Bool
  | [] => true
  | c :: _ => isLineTerm c

/-- Scan for `/^```[\w]*\n?/gm` and delete every match.  `atLS` records
whether the current position is a line start (start of string or right
after a line terminator in the original string), where `^` may match; the
optional newline the pattern consumes is the literal `\n` only. -/
def pass1 : Nat → Bool → List Char → List Char
  | 0, _, s => s
  | fuel + 1, atLS, s =>
    if atLS && fence3 s then
      let t := (s.drop 3).dropWhile isWordChar
      match t with
      | '\n' :: r2 => pass1 fuel true r2
      | _ => pass1 fuel false t
    else
      match s with
      | [] => []
      | c :: rest => c :: pass1 fuel (isLineTerm c) rest

/-- Scan for `/\n?```$/gm` and delete every match (the greedy optional
literal newline is tried first at each position; the `$` anchor matches
before any line terminator). -/
def pass2 : Nat → List Char → List Char
  | 0, s => s
  | _ + 1, [] => []
  | fuel + 1, c :: rest =>
    if c = '\n' && fence3 rest && isEol (rest.drop 3) then
      pass2 fuel (rest.drop 3)
    else if fence3 (c :: rest) && isEol (rest.drop 2) then
      pass2 fuel (rest.drop 2)
    else c :: pass2 fuel rest

/-- Scan for `/```\n?/g` and delete every match. -/
def pass3 : Nat → List Char → List Char
  | 0, s => s
  | _ + 1, [] => []
  | fuel + 1, c :: rest =>
    if fence3 (c :: rest) then
      match rest.drop 2 with
      | '\n' :: t2 => pass3 fuel t2
      | t => pass3 fuel t
    else c :: pass3 fuel rest

/-- JS `trim`: drop whitespace from both ends. -/
def jsTrim (s : List Char) : List Char :=
  ((s.dropWhile isJSWS).reverse.dropWhile isJSWS).reverse

/-- Direct translation of `cleanMarkdownFences`. -/
def cleanMarkdownFences (s : List Char) : List Char :=
  let a := pass1 s.length true s
  let b := pass2 a.length a
  let c := pass3 b.length b
  jsTrim c

/-! ### Wire messages and the chunk-combining mode
(`useWebSocket.ts` interface `WebSocketMessage` and `onMessage`, lines 85-116) -/

inductive MsgType
  | start
  | chunk
  | content
  | complete
  | error
deriving DecidableEq

/-- A parsed wire frame.  Optional JSON fields are `Option`s; `metadata` is
opaque to this core and modelled by an identifier. -/
structure WireMsg where
  type : MsgType
  message : Option String
  content : Option String
  error : Option String
  chunkIndex : Option Nat
  isLast : Option Bool
  metadata : Option Nat
deriving DecidableEq

def mkStart : WireMsg := ⟨.start, none, none, none, none, none, none⟩

def mkChunk (c : Option String) (last : Option Bool) : WireMsg :=
  ⟨.chunk, none, c, none, none, last, none⟩

def mkContent (c : String) : WireMsg :=
  ⟨.content, none, some c, none, none, none, none⟩

def mkComplete : WireMsg := ⟨.complete, none, none, none, none, none, none⟩

def mkError (e : Option String) : WireMsg :=
  ⟨.error, none, none, e, none, none, none⟩

/-- JS truthiness of an optional boolean field (`if (data.is_last)`). -/
def jsTruthy : Option Bool → Bool
  | some true => true
  | _ => false

/-- JS `o || d` on an optional string: `undefined`, `null` and the empty
string are all falsy. -/
def jsOr (o : Option String) (d : String) : String :=
  match o with
  | some s => if s = "" then d else s
  | none => d

/-- The chunk-combining logic inside the installed `onmessage` handler
(`useWebSocket.ts` lines 92-110): a `chunk` frame is staged
(`chunksRef.current.push(data.content || '')`) and produces no callback
invocation unless it carries `is_last`, in which case all staged chunks are
joined and delivered as a single synthesized `content` message carrying the
metadata of the last chunk; every non-`chunk` frame is delivered as-is.
Returns the updated staging buffer and the list of messages passed to the
callback. -/
def combineStep (buf : List String) (m : WireMsg) : List String × List WireMsg :=
  if m.type = .chunk then
    let buf2 := buf ++ [m.content.getD ""]
    if jsTruthy m.isLast then
      ([], [⟨.content, none, some (String.join buf2), none, none, none, m.metadata⟩])
    else (buf2, [])
  else (buf, [m])

/-- Fold `combineStep` over an inbound frame sequence, collecting every
message delivered to the callback. -/
def combineRun (buf : List String) : List WireMsg → List String × List WireMsg
  | [] => (buf, [])
  | m :: ms =>
    let st := combineStep buf m
    let rest := combineRun st.1 ms
    (rest.1, st.2 ++ rest.2)

/-- Messages the App-level handler receives when the frames `ms` arrive on a
socket whose staging buffer starts empty. -/
def deliveredOf (ms : List WireMsg) : List WireMsg :=
  (combineRun [] ms).2

/-! ### App-level message reducer (App.tsx lines 101-153)

Only the state the claims are about is modelled: `isGenerating`, `error`,
`success` and `generatedContent` (the RawContent of the spec).  The
display-side typing state of the other App variant is modelled separately
by `RenderState` above; the conversation-history push on `complete` is
presentation glue outside the claims. -/

structure AppState where
  isGenerating : Bool
  errorMsg : Option String
  success : Bool
  generatedContent : List Char
deriving DecidableEq

def appInit : AppState := ⟨false, none, false, []⟩

/-- One step of the `onMessage` callback in App.tsx: `start` resets,
`chunk` appends then fence-cleans, `content` replaces (fence-cleaned),
`complete` ends generation and fence-cleans once more, `error` ends
generation with `message.error || "An error occurred during generation"`. -/
def appStep (st : AppState) (m : WireMsg) : AppState :=
  match m.type with
  | .start =>
    { st with isGenerating := true, errorMsg := none, success := false,
              generatedContent := [] }
  | .chunk =>
    { st with generatedContent :=
        cleanMarkdownFences (st.generatedContent ++ (m.content.getD "").toList) }
  | .content =>
    { st with generatedContent := cleanMarkdownFences (m.content.getD "").toList }
  | .complete =>
    { st with isGenerating := false, success := true,
              generatedContent := cleanMarkdownFences st.generatedContent }
  | .error =>
    { st with isGenerating := false,
              errorMsg := some (jsOr m.error "An error occurred during generation") }

def appRun (ms : List WireMsg) : AppState :=
  ms.foldl appStep appInit

/-! ### Connection State Machine (`useWebSocket.ts`)

The hook is modelled as explicit state.  Sockets are numbered in creation
order; every created socket carries its `readyState` and its (initially
absent) `onmessage` handler, because `connect` attaches `onopen`, `onerror`
and `onclose` at creation but `onmessage` only when the separate `onMessage`
API is called on the then-current handle.  The handler closures read and
write the hook refs without ever comparing the event socket against
`wsRef.current`, so in the model a transport event on any live socket runs
the corresponding handler body.  Timers are numbered as scheduled;
`reconnectTimeoutRef` holds the id of the most recently scheduled one.
Message-handler callbacks are identified by number; `delivered` records
every `(callback, message)` invocation, `transmitted` every string actually
sent on the wire. -/

inductive RState
  | CONNECTING
  | OPEN
  | CLOSING
  | CLOSED
deriving DecidableEq

inductive WSStatus
  | disconnected
  | connecting
  | connected
  | error
deriving DecidableEq

structure WSocket where
  readyState : RState
  onmessage : Option Nat
deriving DecidableEq

structure HookState where
  url : Option String
  status : WSStatus
  hookError : Option String
  wsRef : Option Nat
  reconnectRef : Option Nat
  pendingTimers : List Nat
  nextTimer : Nat
  sockets : List WSocket
  chunksBuf : List String
  transmitted : List String
  delivered : List (Nat × WireMsg)
deriving DecidableEq

/-- The hook state right after `useWebSocket(url)` mounts. -/
def initState (u : Option String) : HookState :=
  ⟨u, .disconnected, none, none, none, [], 0, [], [], [], []⟩

namespace WS

/-- Model of `connect` (lines 23-62): no-op without a url; otherwise unconditionally
sets status to connecting, clears the hook error, creates a fresh socket
(with its lifecycle handlers attached but no `onmessage`) and stores it in
`wsRef`.  The source contains no check of the current status or handle. -/
def connect (s : HookState) : HookState :=
  match s.url with
  | none => s
  | some _ =>
    { s with status := .connecting, hookError := none,
             sockets := s.sockets ++ [⟨.CONNECTING, none⟩],
             wsRef := some s.sockets.length }

/-- Body of the `ws.onopen` closure (lines 33-38). -/
def onopenBody (s : HookState) : HookState :=
  { s with status := .connected, hookError := none, chunksBuf := [] }

/-- Body of the `ws.onerror` closure (lines 40-44). -/
def onerrorBody (s : HookState) : HookState :=
  { s with status := .error,
           hookError := some "Connection error. Please try again." }

/-- Body of the `ws.onclose` closure (lines 46-55): status disconnected,
handle released, and a reconnect unconditionally scheduled (the timer
closure re-checks the url when it fires). -/
def oncloseBody (s : HookState) : HookState :=
  { s with status := .disconnected, wsRef := none,
           pendingTimers := s.pendingTimers ++ [s.nextTimer],
           reconnectRef := some s.nextTimer,
           nextTimer := s.nextTimer + 1 }

/-- Update socket `sid` in place when it exists. -/
def updSock (socks : List WSocket) (sid : Nat) (f : WSocket → WSocket) :
    List WSocket :=
  match socks[sid]? with
  | some sk => socks.set sid (f sk)
  | none => socks

/-- Model of `ws.close()` as invoked by `disconnect`: an open or still-connecting
socket moves to CLOSING (its close event is still to come and its handlers
stay attached); a closing or closed socket is unaffected. -/
def closeReq (socks : List WSocket) (sid : Nat) : List WSocket :=
  updSock socks sid fun sk =>
    match sk.readyState with
    | .CONNECTING => { sk with readyState := .CLOSING }
    | .OPEN => { sk with readyState := .CLOSING }
    | _ => sk

/-- Model of `disconnect` (lines 64-74): clears the timer named by
`reconnectTimeoutRef` (a no-op when that timer already fired), requests
close of the current socket, releases the handle, forces status
disconnected and resets the staging buffer. -/
def disconnect (s : HookState) : HookState :=
  let timers :=
    match s.reconnectRef with
    | some t => s.pendingTimers.filter (fun x => x ≠ t)
    | none => s.pendingTimers
  let socks :=
    match s.wsRef with
    | some sid => closeReq s.sockets sid
    | none => s.sockets
  { s with pendingTimers := timers, sockets := socks, wsRef := none,
           status := .disconnected, chunksBuf := [] }

/-- Model of `sendMessage` (lines 76-83): transmits exactly when the current handle
exists and its `readyState` is `OPEN`; otherwise returns `false` leaving the
state untouched (nothing is queued). -/
def sendMessage (m : String) (s : HookState) : Bool × HookState :=
  match s.wsRef with
  | some sid =>
    match s.sockets[sid]? with
    | some sk =>
      if sk.readyState = .OPEN then
        (true, { s with transmitted := s.transmitted ++ [m] })
      else (false, s)
    | none => (false, s)
  | none => (false, s)

/-- Model of `onMessage` (lines 85-116): installs the parsing/combining handler with
callback `cb` on the current socket; a silent no-op when no handle exists. -/
def onMessage (cb : Nat) (s : HookState) : HookState :=
  match s.wsRef with
  | some sid =>
    { s with sockets :=
        updSock s.sockets sid (fun sk => { sk with onmessage := some cb }) }
  | none => s

/-- API calls and transport/timer events driving the hook. -/
inductive Act
  | userConnect
  | userDisconnect
  | regHandler (cb : Nat)
  | openEvt (sid : Nat)
  | errorEvt (sid : Nat)
  | closeEvt (sid : Nat)
  | timerFire (tid : Nat)
  | msgEvt (sid : Nat) (m : WireMsg)
deriving DecidableEq

/-- Transport and timer events, as opposed to API calls made by the App. -/
def Act.isEnv : Act → Bool
  | .userConnect => false
  | .userDisconnect => false
  | .regHandler _ => false
  | _ => true

/-- One step of the whole machine.  Event guards encode the transport
semantics: a socket fires `open` only from CONNECTING, fires `close` exactly
once (from any not-yet-closed state, moving to CLOSED), may fire `error`
while connecting or open (moving to CLOSING, with its close event still to
come), and delivers message frames only while OPEN.  A timer fires only if
it was scheduled and not cleared.  When an event fires, the corresponding
handler body attached at socket creation runs; a frame on a socket without
an installed `onmessage` is dropped. -/
def step (s : HookState) : Act → HookState
  | .userConnect => connect s
  | .userDisconnect => disconnect s
  | .regHandler cb => onMessage cb s
  | .openEvt sid =>
    match s.sockets[sid]? with
    | some sk =>
      if sk.readyState = .CONNECTING then
        onopenBody { s with sockets := s.sockets.set sid { sk with readyState := .OPEN } }
      else s
    | none => s
  | .errorEvt sid =>
    match s.sockets[sid]? with
    | some sk =>
      if sk.readyState = .CONNECTING ∨ sk.readyState = .OPEN then
        onerrorBody { s with sockets := s.sockets.set sid { sk with readyState := .CLOSING } }
      else s
    | none => s
  | .closeEvt sid =>
    match s.sockets[sid]? with
    | some sk =>
      if sk.readyState ≠ .CLOSED then
        oncloseBody { s with sockets := s.sockets.set sid { sk with readyState := .CLOSED } }
      else s
    | none => s
  | .timerFire tid =>
    if tid ∈ s.pendingTimers then
      let s2 := { s with pendingTimers := s.pendingTimers.filter (fun x => x ≠ tid) }
      if s2.url.isSome then connect s2 else s2
    else s
  | .msgEvt sid m =>
    match s.sockets[sid]? with
    | some sk =>
      if sk.readyState = .OPEN then
        match sk.onmessage with
        | some cb =>
          let st := combineStep s.chunksBuf m
          { s with chunksBuf := st.1,
                   delivered := s.delivered ++ st.2.map (fun x => (cb, x)) }
        | none => s
      else s
    | none => s

def run (s : HookState) (acts : List Act) : HookState :=
  acts.foldl step s

/-- A hook state with no scheduled reconnect timer and no socket that can
still fire an event: every created socket has already fired its close
event. -/
def quiescent (s : HookState) : Prop :=
  s.pendingTimers = [] ∧ ∀ sk ∈ s.sockets, sk.readyState = RState.CLOSED

end WS

/-! ## Shared lemmas -/

theorem splitAtCloser_eq_none_iff (cl : Char) :
    ∀ s : List Char, splitAtCloser cl s = none ↔ cl ∉ s := by
  intro s
  induction s with
  | nil => simp [splitAtCloser]
  | cons c rest ih =>
    by_cases hc : c = cl
    · subst hc
      simp [splitAtCloser]
    · cases hs : splitAtCloser cl rest with
      | none =>
        simp only [splitAtCloser, if_neg hc, hs, List.mem_cons, true_iff]
        push_neg
        exact ⟨fun h2 => hc h2.symm, ih.mp hs⟩
      | some tr =>
        obtain ⟨t, r⟩ := tr
        simp only [splitAtCloser, if_neg hc, hs, List.mem_cons]
        constructor
        · intro h2
          exact absurd h2 (by simp)
        · intro h2
          exfalso
          apply h2
          right
          by_contra hmem
          rw [ih.mpr hmem] at hs
          exact Option.noConfusion hs

theorem splitAtCloser_eq_some (cl : Char) :
    ∀ s t r : List Char, splitAtCloser cl s = some (t, r) →
      ∃ a, t = a ++ [cl] ∧ cl ∉ a ∧ s = a ++ cl :: r := by
  intro s
  induction s with
  | nil => intro t r h; simp [splitAtCloser] at h
  | cons c rest ih =>
    intro t r h
    by_cases hc : c = cl
    · subst hc
      simp [splitAtCloser] at h
      obtain ⟨rfl, rfl⟩ := h
      exact ⟨[], by simp⟩
    · cases hs : splitAtCloser cl rest with
      | none =>
        simp [splitAtCloser, if_neg hc, hs] at h
      | some tr =>
        obtain ⟨t0, r0⟩ := tr
        simp only [splitAtCloser, if_neg hc, hs, Option.some.injEq, Prod.mk.injEq] at h
        obtain ⟨a0, ha1, ha2, ha3⟩ := ih t0 r0 hs
        refine ⟨c :: a0, ?_, ?_, ?_⟩
        · rw [← h.1, ha1]; rfl
        · intro hmem
          rcases List.mem_cons.mp hmem with h1 | h1
          · exact hc h1.symm
          · exact ha2 h1
        · rw [← h.2, ha3]; rfl

/-- The scanner always splits its input exactly: token plus remainder is the
original pending buffer. -/
theorem getNextRenderableToken_append (s : List Char) :
    (getNextRenderableToken s).1 ++ (getNextRenderableToken s).2 = s := by
  cases s with
  | nil => rfl
  | cons c rest =>
    by_cases h1 : c = '<'
    · subst h1
      cases hs : splitAtCloser '>' ('<' :: rest) with
      | none => simp [getNextRenderableToken, hs]
      | some tr =>
        obtain ⟨t, r⟩ := tr
        obtain ⟨a, ha1, _, ha3⟩ := splitAtCloser_eq_some '>' _ t r hs
        simp only [getNextRenderableToken, if_pos rfl, hs]
        rw [ha1, ha3]
        simp
    · by_cases h2 : c = '&'
      · subst h2
        cases hs : splitAtCloser ';' ('&' :: rest) with
        | none => simp [getNextRenderableToken, hs]
        | some tr =>
          obtain ⟨t, r⟩ := tr
          obtain ⟨a, ha1, _, ha3⟩ := splitAtCloser_eq_some ';' _ t r hs
          simp only [getNextRenderableToken, if_neg (by decide : ('&' : Char) ≠ '<'),
            if_pos rfl, hs]
          rw [ha1, ha3]
          simp
      · simp [getNextRenderableToken, if_neg h1, if_neg h2]

/-! ## Claims -/

/-- Claim C1: for every non-empty pending string the Token Scanner returns a
token and remainder whose concatenation is exactly the input; a string
starting with an opening angle bracket that contains a closing one yields
the whole bracketed span up to and including the first closer, otherwise the
single opening character; the identical rule holds for ampersand-semicolon
entities; any other first character is emitted alone. -/
theorem C1_token_scanner (s : List Char) (hne : s ≠ []) :
    (getNextRenderableToken s).1 ++ (getNextRenderableToken s).2 = s
    ∧ (∀ c rest, s = c :: rest →
        ((c = '<' →
            ('>' ∈ s → ∃ a b, s = a ++ '>' :: b ∧ '>' ∉ a ∧
              (getNextRenderableToken s).1 = a ++ ['>'] ∧
              (getNextRenderableToken s).2 = b)
            ∧ ('>' ∉ s → (getNextRenderableToken s).1 = [c] ∧
                (getNextRenderableToken s).2 = rest))
        ∧ (c = '&' →
            (';' ∈ s → ∃ a b, s = a ++ ';' :: b ∧ ';' ∉ a ∧
              (getNextRenderableToken s).1 = a ++ [';'] ∧
              (getNextRenderableToken s).2 = b)
            ∧ (';' ∉ s → (getNextRenderableToken s).1 = [c] ∧
                (getNextRenderableToken s).2 = rest))
        ∧ (c ≠ '<' → c ≠ '&' → (getNextRenderableToken s).1 = [c] ∧
            (getNextRenderableToken s).2 = rest))) := by
  refine ⟨getNextRenderableToken_append s, ?_⟩
  intro c rest hs
  subst hs
  refine ⟨?_, ?_, ?_⟩
  · intro hc
    subst hc
    constructor
    · intro hmem
      cases hsp : splitAtCloser '>' ('<' :: rest) with
      | none => exact absurd hmem ((splitAtCloser_eq_none_iff '>' _).mp hsp)
      | some tr =>
        obtain ⟨t, r⟩ := tr
        obtain ⟨a, ha1, ha2, ha3⟩ := splitAtCloser_eq_some '>' _ t r hsp
        exact ⟨a, r, ha3, ha2, by simp [getNextRenderableToken, hsp, ha1]⟩
    · intro hmem
      rw [← splitAtCloser_eq_none_iff '>' _] at hmem
      simp [getNextRenderableToken, hmem]
  · intro hc
    subst hc
    constructor
    · intro hmem
      cases hsp : splitAtCloser ';' ('&' :: rest) with
      | none => exact absurd hmem ((splitAtCloser_eq_none_iff ';' _).mp hsp)
      | some tr =>
        obtain ⟨t, r⟩ := tr
        obtain ⟨a, ha1, ha2, ha3⟩ := splitAtCloser_eq_some ';' _ t r hsp
        exact ⟨a, r, ha3, ha2, by simp [getNextRenderableToken, hsp, ha1]⟩
    · intro hmem
      rw [← splitAtCloser_eq_none_iff ';' _] at hmem
      simp [getNextRenderableToken, hmem]
  · intro h1 h2
    simp [getNextRenderableToken, if_neg h1, if_neg h2]

/-- Witness for C1 at the concrete pending buffer `"<b>x"`: the scanner
splits it exactly. -/
theorem C1_token_scanner_witness :
    (getNextRenderableToken ('<' :: 'b' :: '>' :: 'x' :: [])).1 ++
      (getNextRenderableToken ('<' :: 'b' :: '>' :: 'x' :: [])).2 =
      '<' :: 'b' :: '>' :: 'x' :: [] :=
  (C1_token_scanner _ (by decide)).1

/-- Claim C10: the scanner is total, and on the empty string it returns the
empty token and empty remainder rather than failing, even though the
contract in the spec only covers non-empty input. -/
theorem C10_empty_total : getNextRenderableToken [] = ([], []) := rfl

theorem fence3_eq_false {s : List Char} (h : '`' ∉ s) : fence3 s = false := by
  unfold fence3
  split
  · simp at h
  · rfl

theorem pass1_id : ∀ (fuel : Nat) (b : Bool) (s : List Char),
    '`' ∉ s → pass1 fuel b s = s := by
  intro fuel
  induction fuel with
  | zero => intro b s _; rfl
  | succ n ih =>
    intro b s h
    simp only [pass1, fence3_eq_false h, Bool.and_false, Bool.false_eq_true,
      if_false]
    cases s with
    | nil => rfl
    | cons c rest =>
      have hr : '`' ∉ rest := fun hm => h (List.mem_cons_of_mem _ hm)
      show c :: pass1 n (isLineTerm c) rest = c :: rest
      rw [ih _ rest hr]

theorem pass2_id : ∀ (fuel : Nat) (s : List Char), '`' ∉ s → pass2 fuel s = s := by
  intro fuel
  induction fuel with
  | zero => intro s _; rfl
  | succ n ih =>
    intro s h
    cases s with
    | nil => rfl
    | cons c rest =>
      have hr : '`' ∉ rest := fun hm => h (List.mem_cons_of_mem _ hm)
      simp only [pass2, fence3_eq_false hr, fence3_eq_false h, Bool.and_false,
        Bool.false_and, Bool.false_eq_true, if_false]
      rw [ih rest hr]

theorem pass3_id : ∀ (fuel : Nat) (s : List Char), '`' ∉ s → pass3 fuel s = s := by
  intro fuel
  induction fuel with
  | zero => intro s _; rfl
  | succ n ih =>
    intro s h
    cases s with
    | nil => rfl
    | cons c rest =>
      have hr : '`' ∉ rest := fun hm => h (List.mem_cons_of_mem _ hm)
      simp only [pass3, fence3_eq_false h, Bool.false_eq_true, if_false]
      rw [ih rest hr]

theorem jsTrim_id {s : List Char} (h1 : s.dropWhile isJSWS = s)
    (h2 : s.reverse.dropWhile isJSWS = s.reverse) : jsTrim s = s := by
  unfold jsTrim
  rw [h1, h2, List.reverse_reverse]

/-- On a string with no backtick, no leading whitespace and no trailing
whitespace, `cleanMarkdownFences` is the identity. -/
theorem cleanMarkdownFences_id {s : List Char} (hb : '`' ∉ s)
    (h1 : s.dropWhile isJSWS = s)
    (h2 : s.reverse.dropWhile isJSWS = s.reverse) :
    cleanMarkdownFences s = s := by
  simp only [cleanMarkdownFences]
  rw [pass1_id _ _ _ hb, pass2_id _ _ hb, pass3_id _ _ hb]
  exact jsTrim_id h1 h2

/-- Claim C3: feeding `start`, `chunk("A")`, `chunk("B", is_last)`,
`complete` through the chunk-combining handler delivers exactly `start`,
one synthesized `content("AB")` event (flattened at the `is_last` chunk,
contents joined in arrival order), and `complete`; the earlier chunk alone
invokes no callback; a chunk with a missing content field stages the empty
string; and the App reducer ends with RawContent `"AB"` and a succeeded
lifecycle (`success` set, generation over). -/
theorem C3_chunk_reassembly :
    deliveredOf [mkStart, mkChunk (some "A") none,
        mkChunk (some "B") (some true), mkComplete] =
      [mkStart, mkContent "AB", mkComplete]
    ∧ (combineStep [] (mkChunk (some "A") none)).2 = []
    ∧ (combineStep [] (mkChunk none (some true))).2 = [mkContent ""]
    ∧ (appRun (deliveredOf [mkStart, mkChunk (some "A") none,
        mkChunk (some "B") (some true), mkComplete])).generatedContent =
        'A' :: 'B' :: []
    ∧ (appRun (deliveredOf [mkStart, mkChunk (some "A") none,
        mkChunk (some "B") (some true), mkComplete])).success = true
    ∧ (appRun (deliveredOf [mkStart, mkChunk (some "A") none,
        mkChunk (some "B") (some true), mkComplete])).isGenerating = false := by
  decide

/-- Counterexample to claim C4 as stated: after `start`, `chunk("a``")`,
RawContent is `"a``"`; the next `chunk("`b")` message yields RawContent
`"ab"`, because the fence cleaning applied in the chunk branch deletes the
backticks accumulated by the previous chunk once the boundary-split fence
completes.  The old value is not a prefix of the new one, so a chunk
message rewrote characters already accumulated and RawContent is not
append-only. -/
theorem C4_counterexample :
    (appRun [mkStart, mkChunk (some "a``") none]).generatedContent =
      'a' :: '`' :: '`' :: []
    ∧ (appRun [mkStart, mkChunk (some "a``") none,
        mkChunk (some "`b") none]).generatedContent = 'a' :: 'b' :: []
    ∧ List.isPrefixOf ('a' :: '`' :: '`' :: []) ('a' :: 'b' :: []) = false := by
  decide

/-- Claim C4 as amended: within one generation cycle RawContent is reset to
empty on `start`; on every `chunk` message it becomes
`cleanMarkdownFences(previous ++ chunk)` — concatenation followed by
markdown-fence cleaning, which can rewrite or drop already-accumulated
backticks or edge whitespace, but coincides with plain append-only
concatenation whenever the combined string contains no backtick and no
leading or trailing whitespace; `complete` freezes the accumulated content
(the extra cleaning it applies is the identity on such content); `content`
replaces it. -/
theorem C4_amended_append (st : AppState) (c : String) :
    (appStep st mkStart).generatedContent = []
    ∧ (appStep st (mkChunk (some c) none)).generatedContent =
        cleanMarkdownFences (st.generatedContent ++ c.toList)
    ∧ ('`' ∉ st.generatedContent ++ c.toList →
        (st.generatedContent ++ c.toList).dropWhile isJSWS =
          st.generatedContent ++ c.toList →
        (st.generatedContent ++ c.toList).reverse.dropWhile isJSWS =
          (st.generatedContent ++ c.toList).reverse →
        (appStep st (mkChunk (some c) none)).generatedContent =
          st.generatedContent ++ c.toList)
    ∧ ('`' ∉ st.generatedContent →
        st.generatedContent.dropWhile isJSWS = st.generatedContent →
        st.generatedContent.reverse.dropWhile isJSWS =
          st.generatedContent.reverse →
        (appStep st mkComplete).generatedContent = st.generatedContent)
    ∧ (appStep st (mkContent c)).generatedContent =
        cleanMarkdownFences c.toList := by
  refine ⟨rfl, rfl, ?_, ?_, rfl⟩
  · intro hb h1 h2
    exact cleanMarkdownFences_id hb h1 h2
  · intro hb h1 h2
    exact cleanMarkdownFences_id hb h1 h2

/-- Witness for the amended C4 at a concrete state: appending the chunk
`"!"` to accumulated content `"hi"` is a plain append, and `complete`
leaves `"hi"` unchanged. -/
theorem C4_amended_append_witness :
    (appStep ⟨true, none, false, 'h' :: 'i' :: []⟩
        (mkChunk (some "!") none)).generatedContent =
      ('h' :: 'i' :: []) ++ "!".toList
    ∧ (appStep ⟨true, none, false, 'h' :: 'i' :: []⟩
        mkComplete).generatedContent = 'h' :: 'i' :: [] :=
  ⟨(C4_amended_append ⟨true, none, false, 'h' :: 'i' :: []⟩ "!").2.2.1
      (by decide) (by decide) (by decide),
   (C4_amended_append ⟨true, none, false, 'h' :: 'i' :: []⟩ "!").2.2.2.1
      (by decide) (by decide) (by decide)⟩

/-- The render-pipeline invariant: the displayed content followed by the
pending buffer is always exactly the raw content, and it is preserved by
every chunk arrival and every tick. -/
theorem rsRun_invariant (evs : List REv) :
    ∀ st : RenderState, st.displayed ++ st.pending = st.raw →
      (evs.foldl rsStep st).displayed ++ (evs.foldl rsStep st).pending =
        (evs.foldl rsStep st).raw := by
  induction evs with
  | nil => intro st h; exact h
  | cons ev rest ih =>
    intro st h
    refine ih (rsStep st ev) ?_
    cases ev with
    | arrive c =>
      simp only [rsStep, rsArrive]
      rw [← List.append_assoc, h]
    | tick =>
      simp only [rsStep, rsTick]
      by_cases hp : st.pending = []
      · simp only [if_pos hp]
        simpa [hp] using h
      · simp only [if_neg hp]
        rw [List.append_assoc, getNextRenderableToken_append, h]

/-- Claim C2: over any sequence of chunk arrivals and render ticks, once the
pending buffer has drained, the displayed content equals the raw content —
no character is lost and no token is applied twice, regardless of where the
chunk boundaries fell. -/
theorem C2_render_convergence (evs : List REv) (h : (rsRun evs).pending = []) :
    (rsRun evs).displayed = (rsRun evs).raw := by
  have hinv := rsRun_invariant evs ⟨[], [], []⟩ rfl
  rw [rsRun] at h ⊢
  rw [h, List.append_nil] at hinv
  exact hinv

/-- Witness for C2: a concrete run in which a tag and an entity each span a
chunk boundary is drained to quiescence, and displayed equals raw. -/
theorem C2_render_convergence_witness :
    (rsRun [.arrive ('<' :: 'i' :: []), .tick, .arrive ('>' :: 'a' :: []),
        .tick, .tick, .arrive ('&' :: 'l' :: 't' :: ';' :: []), .tick,
        .tick, .tick, .tick]).displayed =
      (rsRun [.arrive ('<' :: 'i' :: []), .tick, .arrive ('>' :: 'a' :: []),
        .tick, .tick, .arrive ('&' :: 'l' :: 't' :: ';' :: []), .tick,
        .tick, .tick, .tick]).raw :=
  C2_render_convergence _ (by decide)

/-- Counterexample to claim C8 as stated: an `error` frame carrying the
empty string is not surfaced verbatim — the JS `message.error || default`
treats the empty string as falsy, so the default generic message is shown
instead of the carried (empty) error string. -/
theorem C8_counterexample :
    (appStep appInit (mkError (some ""))).errorMsg =
      some "An error occurred during generation"
    ∧ (appStep appInit (mkError (some ""))).errorMsg ≠ some "" := by
  decide

/-- Claim C8 as amended: on an `error` wire message generation ends
(`isGenerating` false) and the carried error string is surfaced verbatim
when it is non-empty; when the error field is absent or empty the default
generic message is used; RawContent and the success flag are left as-is. -/
theorem C8_amended_error (st : AppState) (e : String) (oe : Option String) :
    (e ≠ "" → (appStep st (mkError (some e))).errorMsg = some e)
    ∧ (appStep st (mkError none)).errorMsg =
        some "An error occurred during generation"
    ∧ (appStep st (mkError (some ""))).errorMsg =
        some "An error occurred during generation"
    ∧ (appStep st (mkError oe)).isGenerating = false
    ∧ (appStep st (mkError oe)).generatedContent = st.generatedContent
    ∧ (appStep st (mkError oe)).success = st.success := by
  refine ⟨fun he => ?_, ?_, ?_, rfl, rfl, rfl⟩
  · simp [appStep, mkError, jsOr, he]
  · rfl
  · simp [appStep, mkError, jsOr]

/-- Witness for the amended C8: feeding `error("quota exceeded")` surfaces
exactly `"quota exceeded"`. -/
theorem C8_amended_error_witness :
    (appStep ⟨true, none, false, 'x' :: []⟩
        (mkError (some "quota exceeded"))).errorMsg = some "quota exceeded" :=
  (C8_amended_error ⟨true, none, false, 'x' :: []⟩ "quota exceeded" none).1
    (by decide)

/-- Counterexample to claim C7 as stated: with the machine already
connected, a further `connect()` opens a second transport — the source has
no guard on the current status, so two sockets have been created. -/
theorem C7_counterexample :
    (WS.run (initState (some "u")) [.userConnect, .openEvt 0]).status =
      .connected
    ∧ (WS.run (initState (some "u"))
        [.userConnect, .openEvt 0, .userConnect]).sockets.length = 2 := by
  decide

/-- Claim C7 as amended: `connect()` is a no-op when no target address is
configured; otherwise it unconditionally sets state to connecting and opens
a fresh transport, storing it as the current handle — even when already
connecting or connected, in which case the previous handle is replaced by
the second transport just opened. -/
theorem C7_amended_connect (s : HookState) :
    (s.url = none → WS.connect s = s)
    ∧ (s.url.isSome = true →
        (WS.connect s).status = .connecting
        ∧ (WS.connect s).sockets.length = s.sockets.length + 1
        ∧ (WS.connect s).wsRef = some s.sockets.length) := by
  constructor
  · intro h
    simp [WS.connect, h]
  · intro h
    obtain ⟨u, hu⟩ := Option.isSome_iff_exists.mp h
    simp [WS.connect, hu]

/-- Witness for the amended C7: a hook without a url ignores `connect()`;
with a url, `connect()` moves to connecting. -/
theorem C7_amended_connect_witness :
    WS.connect (initState none) = initState none
    ∧ (WS.connect (initState (some "u"))).status = .connecting :=
  ⟨(C7_amended_connect (initState none)).1 rfl,
   ((C7_amended_connect (initState (some "u"))).2 rfl).1⟩

/-- Counterexample to claim C6 as stated: after `connect()` is called twice
(the second while the first socket is still connecting) and the first,
superseded socket then fires its open event, the tracked connection state is
`connected`, yet `send` returns `false` and transmits nothing, because the
current handle is the second, still-connecting socket.  So state `connected`
does not imply transmission. -/
theorem C6_counterexample :
    (WS.run (initState (some "u"))
        [.userConnect, .userConnect, .openEvt 0]).status = .connected
    ∧ (WS.sendMessage "m" (WS.run (initState (some "u"))
        [.userConnect, .userConnect, .openEvt 0])).1 = false
    ∧ (WS.sendMessage "m" (WS.run (initState (some "u"))
        [.userConnect, .userConnect, .openEvt 0])).2 =
      WS.run (initState (some "u")) [.userConnect, .userConnect, .openEvt 0] := by
  decide

/-- Claim C6 as amended: `send(payload)` transmits iff the current transport
handle exists and its readyState is OPEN, returning `true` exactly on
transmission; on `true` the only state change is the payload appended to the
transmitted log, and on `false` the state is completely unchanged — nothing
is ever queued or buffered.  The tracked connection state being `connected`
is neither necessary nor sufficient, since stale handler events can leave
the status out of sync with the current handle. -/
theorem C6_amended_send (s : HookState) (m : String) :
    ((WS.sendMessage m s).1 = true ↔
      ∃ sid sk, s.wsRef = some sid ∧ s.sockets[sid]? = some sk ∧
        sk.readyState = .OPEN)
    ∧ ((WS.sendMessage m s).1 = true →
        (WS.sendMessage m s).2 = { s with transmitted := s.transmitted ++ [m] })
    ∧ ((WS.sendMessage m s).1 = false → (WS.sendMessage m s).2 = s) := by
  rcases hw : s.wsRef with _ | sid
  · have key : WS.sendMessage m s = (false, s) := by
      simp [WS.sendMessage, hw]
    rw [key]
    refine ⟨iff_of_false (by simp) ?_, fun h => absurd h (by simp), fun _ => rfl⟩
    rintro ⟨sid, sk, h1, -, -⟩
    exact Option.noConfusion h1
  · rcases hg : s.sockets[sid]? with _ | sk
    · have key : WS.sendMessage m s = (false, s) := by
        simp [WS.sendMessage, hw, hg]
      rw [key]
      refine ⟨iff_of_false (by simp) ?_, fun h => absurd h (by simp), fun _ => rfl⟩
      rintro ⟨sid2, sk2, h1, h2, -⟩
      obtain rfl := Option.some.inj h1
      rw [hg] at h2
      exact Option.noConfusion h2
    · by_cases ho : sk.readyState = RState.OPEN
      · have key : WS.sendMessage m s =
            (true, { s with transmitted := s.transmitted ++ [m] }) := by
          simp [WS.sendMessage, hw, hg, ho]
        rw [key]
        exact ⟨iff_of_true rfl ⟨sid, sk, rfl, hg, ho⟩, fun _ => by rw [hw],
          fun h => absurd h (by simp)⟩
      · have key : WS.sendMessage m s = (false, s) := by
          simp [WS.sendMessage, hw, hg, ho]
        rw [key]
        refine ⟨iff_of_false (by simp) ?_, fun h => absurd h (by simp),
          fun _ => rfl⟩
        rintro ⟨sid2, sk2, h1, h2, h3⟩
        obtain rfl := Option.some.inj h1
        rw [hg] at h2
        obtain rfl := Option.some.inj h2
        exact ho h3

/-- Witness for the amended C6: on a freshly connected hook, `send`
transmits and appends exactly the payload to the wire log. -/
theorem C6_amended_send_witness :
    (WS.sendMessage "hi" (WS.run (initState (some "u"))
        [.userConnect, .openEvt 0])).2 =
      { WS.run (initState (some "u")) [.userConnect, .openEvt 0] with
          transmitted :=
            (WS.run (initState (some "u"))
              [.userConnect, .openEvt 0]).transmitted ++ ["hi"] } :=
  (C6_amended_send (WS.run (initState (some "u"))
      [.userConnect, .openEvt 0]) "hi").2.1 (by decide)

/-- A transport or timer event on a quiescent hook state (no pending timer,
every socket already closed) is a no-op: no guard of the step function can
fire. -/
theorem step_env_quiescent (s : HookState) (a : WS.Act)
    (hq : WS.quiescent s) (he : a.isEnv = true) : WS.step s a = s := by
  obtain ⟨ht, hs⟩ := hq
  cases a with
  | userConnect => exact absurd he (by simp [WS.Act.isEnv])
  | userDisconnect => exact absurd he (by simp [WS.Act.isEnv])
  | regHandler cb => exact absurd he (by simp [WS.Act.isEnv])
  | openEvt sid =>
    simp only [WS.step]
    cases hg : s.sockets[sid]? with
    | none => rfl
    | some sk =>
      have hc := hs sk (List.getElem?_mem hg)
      simp [hc]
  | errorEvt sid =>
    simp only [WS.step]
    cases hg : s.sockets[sid]? with
    | none => rfl
    | some sk =>
      have hc := hs sk (List.getElem?_mem hg)
      simp [hc]
  | closeEvt sid =>
    simp only [WS.step]
    cases hg : s.sockets[sid]? with
    | none => rfl
    | some sk =>
      have hc := hs sk (List.getElem?_mem hg)
      simp [hc]
  | timerFire tid =>
    simp only [WS.step, ht]
    simp
  | msgEvt sid m =>
    simp only [WS.step]
    cases hg : s.sockets[sid]? with
    | none => rfl
    | some sk =>
      have hc := hs sk (List.getElem?_mem hg)
      simp [hc]

/-- From a quiescent hook state, any sequence of transport and timer events
leaves the state untouched. -/
theorem run_env_quiescent (acts : List WS.Act) :
    ∀ s : HookState, WS.quiescent s → (∀ a ∈ acts, a.isEnv = true) →
      WS.run s acts = s := by
  induction acts with
  | nil => intro s _ _; rfl
  | cons a rest ih =>
    intro s hq he
    have h1 : WS.step s a = s :=
      step_env_quiescent s a hq (he a (List.mem_cons_self a rest))
    show WS.run (WS.step s a) rest = s
    rw [h1]
    exact ih s hq fun b hb => he b (List.mem_cons_of_mem a hb)

/-- Counterexample to claim C5 as stated: `disconnect()` while the transport
is open requests its close; the close event the transport then fires runs
the still-attached `onclose` handler, which schedules a reconnect, and when
that timer fires `connect()` runs automatically — a second socket is created
and the state is `connecting` again, even though `disconnect()` was called
and no user action followed it. -/
theorem C5_counterexample :
    (WS.run (initState (some "u")) [.userConnect, .openEvt 0, .userDisconnect,
        .closeEvt 0, .timerFire 0]).sockets.length = 2
    ∧ (WS.run (initState (some "u")) [.userConnect, .openEvt 0,
        .userDisconnect, .closeEvt 0, .timerFire 0]).status = .connecting := by
  decide

/-- Claim C5 as amended: `disconnect()` cancels the currently scheduled
reconnect, requests close of the transport, and forces state disconnected;
in particular, calling `disconnect()` immediately after a transport close
event yields a state from which no transport or timer event can ever change
anything — the scheduled reconnect never fires and no automatic `connect()`
occurs.  However, `disconnect()` while a transport is still open does not
suppress the reconnect scheduled by the subsequent close event of that
transport, so it is not in general the end of the reconnect loop. -/
theorem C5_amended_disconnect (s : HookState) (acts : List WS.Act) :
    (WS.disconnect s).status = .disconnected
    ∧ (WS.disconnect s).wsRef = none
    ∧ (∀ t, s.reconnectRef = some t → t ∉ (WS.disconnect s).pendingTimers)
    ∧ ((∀ a ∈ acts, a.isEnv = true) →
        WS.run (WS.run (initState (some "u"))
            [.userConnect, .openEvt 0, .closeEvt 0, .userDisconnect]) acts =
          WS.run (initState (some "u"))
            [.userConnect, .openEvt 0, .closeEvt 0, .userDisconnect]
        ∧ (WS.run (initState (some "u"))
            [.userConnect, .openEvt 0, .closeEvt 0, .userDisconnect]).status =
          .disconnected) := by
  refine ⟨rfl, rfl, ?_, ?_⟩
  · intro t ht
    simp only [WS.disconnect, ht]
    simp [List.mem_filter]
  · intro henv
    refine ⟨run_env_quiescent acts _ ?_ henv, by decide⟩
    constructor
    · decide
    · decide

/-- Witness for the amended C5: with a reconnect scheduled as timer 5,
`disconnect()` removes it, and after a disconnect issued right after the
close event, a further close event plus a timer firing change nothing. -/
theorem C5_amended_disconnect_witness :
    5 ∉ (WS.disconnect { initState (some "v") with reconnectRef := some 5, pendingTimers := [5] }).pendingTimers
    ∧ WS.run (WS.run (initState (some "u"))
          [.userConnect, .openEvt 0, .closeEvt 0, .userDisconnect])
        [.closeEvt 0, .timerFire 0] =
      WS.run (initState (some "u"))
        [.userConnect, .openEvt 0, .closeEvt 0, .userDisconnect] :=
  ⟨(C5_amended_disconnect { initState (some "v") with reconnectRef := some 5, pendingTimers := [5] } []).2.2.1 5 rfl,
   ((C5_amended_disconnect (initState none) [.closeEvt 0, .timerFire 0]).2.2.2
      (by decide)).1⟩

/-- Claim C9: `onMessage` with no current transport handle installs nothing
and returns silently; the handler is attached to the current socket object
only — a socket freshly created by `connect` carries no message handler, a
frame arriving on a socket without a handler invokes no callback and changes
nothing, and in the concrete reconnect run the new socket is open with no
handler and nothing was ever delivered. -/
theorem C9_onmessage_attachment (s : HookState) (cb sid : Nat) (m : WireMsg)
    (sk : WSocket) :
    (s.wsRef = none → WS.onMessage cb s = s)
    ∧ (s.url.isSome = true →
        (WS.connect s).sockets[s.sockets.length]? =
          some ⟨.CONNECTING, none⟩)
    ∧ (s.sockets[sid]? = some sk → sk.onmessage = none →
        WS.step s (.msgEvt sid m) = s)
    ∧ ((WS.run (initState (some "u")) [.userConnect, .openEvt 0,
          .regHandler 7, .closeEvt 0, .timerFire 0, .openEvt 1,
          .msgEvt 1 (mkContent "x")]).delivered = []
       ∧ (WS.run (initState (some "u")) [.userConnect, .openEvt 0,
          .regHandler 7, .closeEvt 0, .timerFire 0, .openEvt 1,
          .msgEvt 1 (mkContent "x")]).sockets[1]? = some ⟨.OPEN, none⟩) := by
  refine ⟨?_, ?_, ?_, by decide, by decide⟩
  · intro h
    simp [WS.onMessage, h]
  · intro h
    obtain ⟨u, hu⟩ := Option.isSome_iff_exists.mp h
    simp only [WS.connect, hu]
    exact List.getElem?_concat_length _ _
  · intro hg hn
    simp only [WS.step, hg, hn]
    split
    · rfl
    · rfl

/-- Witness for C9: on a freshly mounted hook (no handle) `onMessage` is a
no-op; the socket `connect` creates carries no message handler; and a frame
arriving on it invokes no callback. -/
theorem C9_onmessage_attachment_witness :
    WS.onMessage 5 (initState (some "u")) = initState (some "u")
    ∧ (WS.connect (initState (some "u"))).sockets[0]? =
        some ⟨.CONNECTING, none⟩
    ∧ WS.step (WS.connect (initState (some "u"))) (.msgEvt 0 (mkContent "x")) =
        WS.connect (initState (some "u")) :=
  ⟨(C9_onmessage_attachment (initState (some "u")) 5 0 (mkContent "x")
      ⟨.CONNECTING, none⟩).1 rfl,
   (C9_onmessage_attachment (initState (some "u")) 5 0 (mkContent "x")
      ⟨.CONNECTING, none⟩).2.1 rfl,
   (C9_onmessage_attachment (WS.connect (initState (some "u"))) 5 0
      (mkContent "x") ⟨.CONNECTING, none⟩).2.2.1 (by decide) rfl⟩
